import Mathlib

/-!
Verification of the LifetimeDiagrams program (src/main.rs): an annotation
parser that recognises lifetime comments in source lines, a renderer that
lays out bracket geometry for each recovered span, and an inline markup
formatter for label text.

The embedding is shallow: the regex-driven line matcher, the parsing loop,
the per-span geometry and the markup state machine are translated directly
from the Rust source.  `panic!` calls become `Except.error` with the exact
panic message; the SVG document is modelled as a list of structured nodes
(text elements and polyline paths), with the out-of-scope serialisation
layer (XML printing, HTML escaping of code text, the static CSS constant)
left at the node boundary.
-/

/-- A resolved lifetime span, translated from `struct Lifetime` in main.rs. -/
structure Lifetime where
  starting_line : Nat
  ending_line : Nat
  comment : String
deriving DecidableEq, Repr

/-- Length of the leading run of dash characters. -/
def dashCount : List Char → Nat
  | '-' :: rest => dashCount rest + 1
  | _ => 0

/-- Consume at most one leading space, translating the greedy `' ?'` of the
annotation regex. -/
def stripOneSpace : List Char → List Char
  | ' ' :: rest => rest
  | l => l

/-- Try to read `// (-+)([/\\]) ?(.*)` at the start of `s`: the part of the
annotation regex after the code-prefix group.  Returns
(width, is_start, label characters). -/
def tryAnnot (s : List Char) : Option (Nat × Bool × List Char) :=
  match s with
  | '/' :: '/' :: ' ' :: rest =>
    let m := dashCount rest
    if m = 0 then none
    else
      match rest.drop m with
      | '/' :: tail => some (m, false, stripOneSpace tail)
      | '\\' :: tail => some (m, true, stripOneSpace tail)
      | _ => none
  | _ => none

/-- The annotation regex `^(.*)// (-+)([/\\]) ?(.*)$` of main.rs, on the
characters of one line.  The leading `(.*)` is greedy, so the code prefix
(first component) is the longest prefix whose remainder still matches; the
dash run is maximal because the character after it must be a direction
glyph, which is not a dash. -/
def matchAnnot : List Char → Option (List Char × Nat × Bool × List Char)
  | [] => none
  | c :: cs =>
    match matchAnnot cs with
    | some (p, r) => some (c :: p, r)
    | none => (tryAnnot (c :: cs)).map (fun r => ([], r))

/-- Remove every entry with key `w`, the effect of `HashMap::remove` on the
open-span table. -/
def eraseKey (w : Nat) (t : List (Nat × Lifetime)) : List (Nat × Lifetime) :=
  t.filter (fun p => p.1 ≠ w)

/-- The scanning loop of `find_lifetimes` (main.rs lines 47-82), processing
the remaining lines with `i` the row of the first of them and `table` the
open-span table.  Returns the cleaned remaining lines and the spans closed
among them, or the panic message of the Rust code. -/
def findLoop (i : Nat) (table : List (Nat × Lifetime)) :
    List String → Except String (List String × List Lifetime)
  | [] => .ok ([], [])
  | line :: rest =>
    match matchAnnot line.data with
    | none =>
      match findLoop (i + 1) table rest with
      | .error e => .error e
      | .ok (ls, lts) => .ok (line :: ls, lts)
    | some (pfx, w, is_start, label) =>
      match List.lookup w table with
      | some lt =>
        if is_start then
          .error ("Lifetime from line " ++ toString lt.starting_line ++
            " not finished before it is started again on line " ++ toString i)
        else
          match findLoop (i + 1) (eraseKey w table) rest with
          | .error e => .error e
          | .ok (ls, lts) =>
            .ok (String.mk pfx :: ls, { lt with ending_line := i } :: lts)
      | none =>
        if is_start then
          match findLoop (i + 1)
              ((w, ⟨i, 0, String.mk label⟩) :: table) rest with
          | .error e => .error e
          | .ok (ls, lts) => .ok (String.mk pfx :: ls, lts)
        else
          .error ("Ending lifetime on line " ++ toString i ++ " wasn't started")

/-- `find_lifetimes` of main.rs: cleans the line buffer and returns the
completed spans in the order they were closed.  The in-place mutation of
`code` becomes returning the cleaned buffer next to the span list; the two
`panic!` calls become `Except.error` carrying the panic message. -/
def find_lifetimes (code : List String) :
    Except String (List String × List Lifetime) :=
  findLoop 0 [] code

/-- The four style toggles and the escape flag of `markup_to_svg`, all
initially off. -/
structure MarkState where
  in_bold : Bool
  in_underline : Bool
  in_italic : Bool
  in_code : Bool
  escaped : Bool
deriving DecidableEq, Repr

def MarkState.initial : MarkState := ⟨false, false, false, false, false⟩

/-- `in_bold || in_underline || in_italic || in_code`: some style toggle is
currently on. -/
def anyOn (st : MarkState) : Bool :=
  st.in_bold || st.in_underline || st.in_italic || st.in_code

/-- The inner `match` of `markup_to_svg` that flips exactly the toggle of a
delimiter character. -/
def toggleOf (c : Char) (st : MarkState) : MarkState :=
  match c with
  | '_' => { st with in_underline := !st.in_underline }
  | '`' => { st with in_code := !st.in_code }
  | '*' => { st with in_bold := !st.in_bold }
  | '/' => { st with in_italic := !st.in_italic }
  | _ => st

/-- One piece appended to the `output` string of `markup_to_svg`: an opening
tspan tag carrying the full set of active toggles, a closing tspan tag, or
one literal character. -/
inductive MTok where
  | openTag (b u i c : Bool)
  | closeTag
  | chr (ch : Char)
deriving DecidableEq, Repr

/-- The scan of `markup_to_svg` (main.rs lines 240-271) as a token stream:
each iteration appends to `output` a close tag when a toggle was on, an
open tag when one is on after the flip, and literal characters otherwise. -/
def markupTokensLoop (st : MarkState) : List Char → List MTok
  | [] => []
  | c :: cs =>
    if st.escaped then
      .chr c :: markupTokensLoop { st with escaped := false } cs
    else if c = '_' || c = '`' || c = '*' || c = '/' then
      let closeToks := if anyOn st then [MTok.closeTag] else []
      let st2 := toggleOf c st
      let openToks :=
        if anyOn st2 then
          [MTok.openTag st2.in_bold st2.in_underline st2.in_italic st2.in_code]
        else []
      closeToks ++ openToks ++ markupTokensLoop st2 cs
    else if c = '\\' then
      markupTokensLoop { st with escaped := true } cs
    else
      .chr c :: markupTokensLoop st cs

/-- The token stream of `markup_to_svg` on a label, from the all-off state. -/
def markupTokens (s : String) : List MTok :=
  markupTokensLoop MarkState.initial s.data

/-- The text each token contributes to `output`: the closing literal
`</tspan>`, the `format!("<tspan class=\"{} {} {} {}\">", ...)` string of
the opening branch, or the pushed character. -/
def renderTok : MTok → String
  | .closeTag => "</tspan>"
  | .openTag b u i c =>
    "<tspan class=\"" ++ (if b then "m_bold" else "") ++ " " ++
      (if u then "m_underline" else "") ++ " " ++
      (if i then "m_italic" else "") ++ " " ++
      (if c then "m_code" else "") ++ "\">"
  | .chr ch => String.singleton ch

/-- `markup_to_svg` of main.rs: the output string is exactly the
concatenation, in scan order, of the pieces the loop appends. -/
def markup_to_svg (s : String) : String :=
  String.join ((markupTokens s).map renderTok)

/-- An SVG document node, at the granularity the renderer builds them: the
static style/definitions block, a positioned text element with a class and
raw textual content, or a path element with its polyline points.  XML
serialisation and the HTML escaping of code text are the out-of-scope
vector-document primitive layer and stay outside the model. -/
inductive SvgNode where
  | styleDefs
  | textNode (x y : Nat) (cls : String) (content : String)
  | pathNode (cls : String) (points : List (Nat × Nat))
deriving DecidableEq, Repr

/-- The code-row text elements of `generate_svg` (main.rs lines 146-158):
every line, blank ones included, at `(0, i*20 + 20)` with class `code`. -/
def codeTextNodes (i : Nat) : List String → List SvgNode
  | [] => []
  | line :: rest =>
    SvgNode.textNode 0 (i * 20 + 20) "code" line :: codeTextNodes (i + 1) rest

/-- The label text element for the span at enumeration index `i`
(main.rs lines 175-179): position `(xm + 10, y0 + 15)`, class
`annotation`, content produced by the markup formatter. -/
def labelNode (i : Nat) (lt : Lifetime) : SvgNode :=
  let y0 := lt.starting_line * 20 + 10
  let xm := 230 + 20 * i
  SvgNode.textNode (xm + 10) (y0 + 15) "annotation" (markup_to_svg lt.comment)

/-- The bracket path for the span at enumeration index `i` (main.rs lines
166-197): the seven `move_to`/`line_to` points with `y0 = starting*20+10`,
`ym = (starting+1)*20`, `y1 = ending*20+30`, `x0 = x1 = 150`,
`xm = 230 + 20*i`. -/
def bracketNode (i : Nat) (lt : Lifetime) : SvgNode :=
  let y0 := lt.starting_line * 20 + 10
  let ym := (lt.starting_line + 1) * 20
  let y1 := lt.ending_line * 20 + 30
  let x0 := 150
  let xm := 230 + 20 * i
  let x1 := 150
  SvgNode.pathNode "line"
    [(x0, y0), ((x0 + xm) / 2, y0), ((x0 + xm) / 2, ym), (xm, ym),
      ((x0 + xm) / 2, ym), ((x0 + xm) / 2, y1), (x1, y1)]

/-- The per-span section of `generate_svg`: `for (i, lifetime) in
lifetimes.iter().enumerate()` appends the label text element and then the
bracket path of each span. -/
def spanNodes (i : Nat) : List Lifetime → List SvgNode
  | [] => []
  | lt :: rest => labelNode i lt :: bracketNode i lt :: spanNodes (i + 1) rest

/-- `generate_svg` of main.rs as its sequence of document nodes: the style
definitions block, then one text element per code row, then label and
bracket for each span in enumeration order. -/
def generate_svg (code : List String) (lifetimes : List Lifetime) :
    List SvgNode :=
  SvgNode.styleDefs :: (codeTextNodes 0 code ++ spanNodes 0 lifetimes)

/-- The outcome of one program run: a complete diagram on stdout, an
`Error: `-prefixed line on stdout, or a `panic!` abort with its message. -/
inductive ProgOutcome where
  | diagram (nodes : List SvgNode)
  | errLine (s : String)
  | panicked (msg : String)
deriving DecidableEq, Repr

/-- Split a character list at every newline character. -/
def splitNewlines : List Char → List (List Char)
  | [] => [[]]
  | c :: cs =>
    if c = '\n' then [] :: splitNewlines cs
    else
      match splitNewlines cs with
      | [] => [[c]]
      | l :: ls => (c :: l) :: ls

/-- Drop one trailing carriage return, as Rust's `str::lines()` does on
each line. -/
def stripTrailingCR (l : List Char) : List Char :=
  if l.getLast? = some '\r' then l.dropLast else l

/-- Rust's `str::lines()`: split on `'\n'`, drop the final empty piece a
trailing newline produces, and strip one trailing `'\r'` from each line. -/
def splitLines (s : String) : List String :=
  if s.data = [] then []
  else
    let ps := splitNewlines s.data
    let ps := if ps.getLast? = some [] then ps.dropLast else ps
    ps.map (fun l => String.mk (stripTrailingCR l))

/-- `run` and `main` of main.rs (lines 290-310), with the stdin read result
as input: a read failure is returned as `Err` and printed by `main` as a
single `Error: `-prefixed line; a parse failure inside `find_lifetimes` is
a `panic!`, which aborts before `main`'s `match` ever runs. -/
def runProg (stdinResult : Except String String) : ProgOutcome :=
  match stdinResult with
  | .error e => .errLine ("Error: " ++ e)
  | .ok buffer =>
    match find_lifetimes (splitLines buffer) with
    | .error m => .panicked m
    | .ok (cleaned, lifetimes) => .diagram (generate_svg cleaned lifetimes)

/-- Whether a program outcome is a complete diagram. -/
def isDiagram : ProgOutcome → Bool
  | .diagram _ => true
  | _ => false

/-- Whether a program outcome is a single `Error: `-prefixed line. -/
def isErrLine : ProgOutcome → Bool
  | .errLine _ => true
  | _ => false

/-- Spec-side failure scan, following the resolution algorithm of spec §4.1:
it tracks only the widths of the open-span table, processes lines in
strictly increasing row order, and reports whether the scan reaches a
grammar-matching OPEN-GLYPH line whose width is already open or a
grammar-matching CLOSE-GLYPH line whose width is not open.  Reaching the
end of input with widths still open is not a failure.  This is the
comparator the parser's failure behaviour is proved equivalent to. -/
def specScanFails (opens : List Nat) : List String → Bool
  | [] => false
  | line :: rest =>
    match matchAnnot line.data with
    | none => specScanFails opens rest
    | some (_, w, is_start, _) =>
      if w ∈ opens then
        if is_start then true
        else specScanFails (opens.filter (fun x => x ≠ w)) rest
      else
        if is_start then specScanFails (w :: opens) rest
        else true

/-- Whether a parse result is a failure. -/
def exceptIsError : Except String (List String × List Lifetime) → Bool
  | .error _ => true
  | .ok _ => false

/-- Number of opening tspan tags in a markup token stream. -/
def countOpenTags (ts : List MTok) : Nat :=
  ts.countP (fun t => match t with | .openTag _ _ _ _ => true | _ => false)

/-- Number of closing tspan tags in a markup token stream. -/
def countCloseTags (ts : List MTok) : Nat :=
  ts.countP (fun t => match t with | .closeTag => true | _ => false)

/-- The example input of spec §8 (and of the comment atop main.rs), as a
line buffer. -/
def scenarioLines : List String :=
  ["let r;         // -------\\ Lifetime of `r`",
   "let x = 5; // -\\ Lifetime of `b`",
   "r = &x;",
   "               // -/",
   "               // -------/"]

/-- The cleaned buffer the parser produces on `scenarioLines`: each
annotation line keeps only its code prefix. -/
def scenarioCleaned : List String :=
  ["let r;         ", "let x = 5; ", "r = &x;", "               ",
   "               "]

/-- The two spans of the §8 scenario, in the order they are closed: the
width-1 span (rows 1 to 3) first, the width-7 span (rows 0 to 4) second. -/
def scenarioSpans : List Lifetime :=
  [⟨1, 3, "Lifetime of `b`"⟩, ⟨0, 4, "Lifetime of `r`"⟩]

/-- Row `r` of the buffer holds a line matching the annotation grammar
with width `w` and the given direction (`true` = OPEN-GLYPH,
`false` = CLOSE-GLYPH). -/
def annotLineAt (code : List String) (w : Nat) (isStart : Bool) (r : Nat) :
    Prop :=
  ∃ line pfx label, code.get? r = some line ∧
    matchAnnot line.data = some (pfx, w, isStart, label)

/-- No line strictly between rows `r0` and `r1` is an annotation line of
width `w` in either direction — so a span of width `w` opened at `r0` is
still open when row `r1` is reached. -/
def noWidthBetween (code : List String) (w r0 r1 : Nat) : Prop :=
  ∀ r, r0 < r → r < r1 → ∀ b, ¬ annotLineAt code w b r

/-! ## Helper lemmas -/

theorem lookup_mem {w : Nat} {t : List (Nat × Lifetime)} {lt : Lifetime}
    (h : List.lookup w t = some lt) : (w, lt) ∈ t := by
  induction t with
  | nil => simp [List.lookup] at h
  | cons p rest ih =>
    rw [List.lookup] at h
    cases hw : w == p.1 with
    | true =>
      rw [hw] at h
      obtain rfl : p.2 = lt := by injection h
      obtain rfl : w = p.1 := by simpa using hw
      exact List.mem_cons_self _ _
    | false =>
      rw [hw] at h
      exact List.mem_cons_of_mem _ (ih h)

theorem mem_eraseKey {w : Nat} {t : List (Nat × Lifetime)}
    {p : Nat × Lifetime} (h : p ∈ eraseKey w t) : p ∈ t :=
  List.mem_of_mem_filter h

theorem findLoop_nil (i : Nat) (table : List (Nat × Lifetime)) :
    findLoop i table [] = .ok ([], []) := rfl

/-- Spans returned by the scanning loop are closed at rows at or after the
current row, and are listed in strictly increasing order of closing row. -/
theorem findLoop_ok_close_order (rest : List String) :
    ∀ (i : Nat) (table : List (Nat × Lifetime)) (ls : List String)
      (lts : List Lifetime),
    findLoop i table rest = .ok (ls, lts) →
    (∀ lt ∈ lts, i ≤ lt.ending_line) ∧
    List.Pairwise (fun a b => a.ending_line < b.ending_line) lts := by
  induction rest with
  | nil =>
    intro i table ls lts h
    rw [findLoop_nil] at h
    injection h with h'
    rw [Prod.mk.injEq] at h'
    obtain ⟨rfl, rfl⟩ := h'
    exact ⟨by simp, List.Pairwise.nil⟩
  | cons line rest ih =>
    intro i table ls lts h
    unfold findLoop at h
    split at h
    · -- no grammar match on this line
      split at h
      · exact absurd h (by simp)
      · rename_i ls' lts' heq
        injection h with h'
        rw [Prod.mk.injEq] at h'
        obtain ⟨rfl, rfl⟩ := h'
        obtain ⟨hb, hp⟩ := ih _ _ _ _ heq
        exact ⟨fun lt hm => Nat.le_of_succ_le (hb lt hm), hp⟩
    · -- grammar match
      split at h
      · -- width already open
        split at h
        · exact absurd h (by simp)
        · split at h
          · exact absurd h (by simp)
          · rename_i ls' lts' heq
            injection h with h'
            rw [Prod.mk.injEq] at h'
            obtain ⟨rfl, rfl⟩ := h'
            obtain ⟨hb, hp⟩ := ih _ _ _ _ heq
            refine ⟨?_, ?_⟩
            · intro lt hm
              rcases List.mem_cons.mp hm with hm | hm
              · subst hm; exact Nat.le_refl i
              · exact Nat.le_of_succ_le (hb lt hm)
            · rw [List.pairwise_cons]
              exact ⟨fun b hb' => Nat.lt_of_succ_le (hb b hb'), hp⟩
      · -- width not open
        split at h
        · split at h
          · exact absurd h (by simp)
          · rename_i ls' lts' heq
            injection h with h'
            rw [Prod.mk.injEq] at h'
            obtain ⟨rfl, rfl⟩ := h'
            obtain ⟨hb, hp⟩ := ih _ _ _ _ heq
            exact ⟨fun lt hm => Nat.le_of_succ_le (hb lt hm), hp⟩
        · exact absurd h (by simp)

/-- If every open-table entry was opened strictly before the current row,
every span the scanning loop returns is opened strictly before it is
closed. -/
theorem findLoop_ok_start_lt_end (rest : List String) :
    ∀ (i : Nat) (table : List (Nat × Lifetime)) (ls : List String)
      (lts : List Lifetime),
    (∀ p ∈ table, p.2.starting_line < i) →
    findLoop i table rest = .ok (ls, lts) →
    ∀ lt ∈ lts, lt.starting_line < lt.ending_line := by
  induction rest with
  | nil =>
    intro i table ls lts _ h
    rw [findLoop_nil] at h
    injection h with h'
    rw [Prod.mk.injEq] at h'
    obtain ⟨rfl, rfl⟩ := h'
    simp
  | cons line rest ih =>
    intro i table ls lts htab h
    unfold findLoop at h
    split at h
    · -- no grammar match on this line
      split at h
      · exact absurd h (by simp)
      · rename_i ls' lts' heq
        injection h with h'
        rw [Prod.mk.injEq] at h'
        obtain ⟨rfl, rfl⟩ := h'
        exact ih _ _ _ _ (fun p hp => Nat.lt_succ_of_lt (htab p hp)) heq
    · -- grammar match
      rename_i pfx w is_start label _
      split at h
      · -- width already open: the close branch
        rename_i lt0 hlk
        split at h
        · exact absurd h (by simp)
        · split at h
          · exact absurd h (by simp)
          · rename_i ls' lts' heq
            injection h with h'
            rw [Prod.mk.injEq] at h'
            obtain ⟨rfl, rfl⟩ := h'
            intro lt hm
            rcases List.mem_cons.mp hm with hm | hm
            · subst hm
              exact htab (w, lt0) (lookup_mem hlk)
            · refine ih _ _ _ _ ?_ heq lt hm
              intro p hp
              exact Nat.lt_succ_of_lt (htab p (mem_eraseKey hp))
      · -- width not open: the open branch
        split at h
        · split at h
          · exact absurd h (by simp)
          · rename_i ls' lts' heq
            injection h with h'
            rw [Prod.mk.injEq] at h'
            obtain ⟨rfl, rfl⟩ := h'
            refine ih _ _ _ _ ?_ heq
            intro p hp
            rcases List.mem_cons.mp hp with hp | hp
            · subst hp; exact Nat.lt_succ_self i
            · exact Nat.lt_succ_of_lt (htab p hp)
        · exact absurd h (by simp)

/-- Once the line at row `j` is known, `annotLineAt` at row `j` is just a
statement about that line's grammar match. -/
theorem annotLineAt_iff {code : List String} {line : String} {j : Nat}
    (hget : code.get? j = some line) (w : Nat) (b : Bool) :
    annotLineAt code w b j ↔
      ∃ pfx label, matchAnnot line.data = some (pfx, w, b, label) := by
  constructor
  · rintro ⟨line', pfx', label', hg', hm'⟩
    rw [hget] at hg'
    injection hg' with hl
    subst hl
    exact ⟨pfx', label', hm'⟩
  · rintro ⟨pfx', label', hm'⟩
    exact ⟨line, pfx', label', hget, hm'⟩

theorem lookup_none_ne {w : Nat} {t : List (Nat × Lifetime)}
    (h : List.lookup w t = none) : ∀ p ∈ t, p.1 ≠ w := by
  induction t with
  | nil => intro p hp; simp at hp
  | cons q rest ih =>
    rw [List.lookup] at h
    cases hw : w == q.1 with
    | true => rw [hw] at h; exact absurd h (by simp)
    | false =>
      rw [hw] at h
      intro p hp
      rcases List.mem_cons.mp hp with hp0 | hp1
      · subst hp0
        intro hc
        rw [hc] at hw
        simp at hw
      · exact ih h p hp1

theorem mem_eraseKey_ne {w : Nat} {t : List (Nat × Lifetime)}
    {p : Nat × Lifetime} (h : p ∈ eraseKey w t) : p.1 ≠ w := by
  have hm := List.mem_filter.mp h
  simpa using hm.2

/-- Every error of the scanning loop carries the rows actually involved:
on a span conflict the message is the conflict template applied to the row
of the still-open span of that width — an earlier OPEN-GLYPH row of the
same width with no intervening annotation line of that width — and to the
current row, which holds the conflicting OPEN-GLYPH line; on an unmatched
close the message is the unmatched-close template applied to the current
row, which holds the failing CLOSE-GLYPH line.  The open-table hypothesis
records where each pending span was opened. -/
theorem findLoop_error_rows (code : List String) :
    ∀ (rest : List String) (j : Nat) (table : List (Nat × Lifetime))
      (msg : String),
    code.drop j = rest →
    (∀ p ∈ table, p.2.starting_line < j ∧
      annotLineAt code p.1 true p.2.starting_line ∧
      ∀ r, p.2.starting_line < r → r < j → ∀ b, ¬ annotLineAt code p.1 b r) →
    findLoop j table rest = .error msg →
    (∃ w r0 r1, r0 < r1 ∧ annotLineAt code w true r0 ∧
      annotLineAt code w true r1 ∧ noWidthBetween code w r0 r1 ∧
      msg = "Lifetime from line " ++ toString r0 ++
        " not finished before it is started again on line " ++ toString r1) ∨
    (∃ w r, annotLineAt code w false r ∧
      msg = "Ending lifetime on line " ++ toString r ++ " wasn't started") := by
  intro rest
  induction rest with
  | nil =>
    intro j table msg _ _ h
    rw [findLoop_nil] at h
    exact absurd h (by simp)
  | cons line rest ih =>
    intro j table msg hdrop htab h
    have hget : code.get? j = some line := by
      have hd := List.get?_drop code j 0
      rw [hdrop] at hd
      simpa using hd.symm
    have hdrop' : code.drop (j + 1) = rest := by
      have h1 := List.drop_drop 1 j code
      rw [hdrop] at h1
      exact h1.symm.trans rfl
    unfold findLoop at h
    split at h
    · -- the line does not match the grammar
      rename_i heq
      split at h
      · rename_i e heq2
        injection h with h'
        subst h'
        refine ih (j + 1) table _ hdrop' ?_ heq2
        intro p hp
        obtain ⟨h1, h2, h3⟩ := htab p hp
        refine ⟨Nat.lt_succ_of_lt h1, h2, ?_⟩
        intro r hr1 hr2 b hb
        by_cases hrj : r < j
        · exact h3 r hr1 hrj b hb
        · have hEq : r = j := by omega
          subst hEq
          obtain ⟨pfx', label', hm'⟩ := (annotLineAt_iff hget p.1 b).mp hb
          rw [heq] at hm'
          exact Option.noConfusion hm'
      · exact absurd h (by simp)
    · -- the line matches the grammar
      rename_i pfx w is_start label heq
      split at h
      · -- the width is already open
        rename_i lt0 hlk
        split at h
        · -- OPEN-GLYPH on an open width: the span-conflict error
          rename_i hstart
          subst hstart
          injection h with h'
          obtain ⟨hj1, hopen0, hbet⟩ := htab (w, lt0) (lookup_mem hlk)
          left
          refine ⟨w, lt0.starting_line, j, hj1, hopen0, ?_, hbet, h'.symm⟩
          exact (annotLineAt_iff hget w true).mpr ⟨pfx, label, heq⟩
        · -- CLOSE-GLYPH on an open width: the close branch
          rename_i hstart
          have hsf : is_start = false := by
            revert hstart; cases is_start <;> simp
          subst hsf
          split at h
          · rename_i e heq2
            injection h with h'
            subst h'
            refine ih (j + 1) (eraseKey w table) _ hdrop' ?_ heq2
            intro p hp
            obtain ⟨h1, h2, h3⟩ := htab p (mem_eraseKey hp)
            refine ⟨Nat.lt_succ_of_lt h1, h2, ?_⟩
            intro r hr1 hr2 b hb
            by_cases hrj : r < j
            · exact h3 r hr1 hrj b hb
            · have hEq : r = j := by omega
              subst hEq
              obtain ⟨pfx', label', hm'⟩ := (annotLineAt_iff hget p.1 b).mp hb
              rw [heq] at hm'
              injection hm' with hm''
              have hw : w = p.1 := by
                have := congrArg (fun q => q.2.1) hm''
                simpa using this
              exact (mem_eraseKey_ne hp) hw.symm
          · exact absurd h (by simp)
      · -- the width is not open
        rename_i hlk
        split at h
        · -- OPEN-GLYPH on a fresh width: the open branch
          rename_i hstart
          subst hstart
          split at h
          · rename_i e heq2
            injection h with h'
            subst h'
            refine ih (j + 1) ((w, ⟨j, 0, String.mk label⟩) :: table) _
              hdrop' ?_ heq2
            intro p hp
            rcases List.mem_cons.mp hp with hp0 | hp1
            · subst hp0
              refine ⟨Nat.lt_succ_self j, ?_, ?_⟩
              · exact (annotLineAt_iff hget w true).mpr ⟨pfx, label, heq⟩
              · intro r hr1 hr2 b _
                have hjr : j < r := hr1
                exact absurd hr2 (by omega)
            · obtain ⟨h1, h2, h3⟩ := htab p hp1
              refine ⟨Nat.lt_succ_of_lt h1, h2, ?_⟩
              intro r hr1 hr2 b hb
              by_cases hrj : r < j
              · exact h3 r hr1 hrj b hb
              · have hEq : r = j := by omega
                subst hEq
                obtain ⟨pfx', label', hm'⟩ := (annotLineAt_iff hget p.1 b).mp hb
                rw [heq] at hm'
                injection hm' with hm''
                have hw : w = p.1 := by
                  have := congrArg (fun q => q.2.1) hm''
                  simpa using this
                exact (lookup_none_ne hlk p hp1) hw.symm
          · exact absurd h (by simp)
        · -- CLOSE-GLYPH on an unopened width: the unmatched-close error
          rename_i hstart
          have hsf : is_start = false := by
            revert hstart; cases is_start <;> simp
          subst hsf
          injection h with h'
          right
          exact ⟨w, j, (annotLineAt_iff hget w false).mpr ⟨pfx, label, heq⟩,
            h'.symm⟩

/-- On a buffer in which no line matches the annotation grammar, the
scanning loop touches nothing and closes no span. -/
theorem findLoop_no_match (ls : List String) :
    ∀ (i : Nat) (table : List (Nat × Lifetime)),
    (∀ l ∈ ls, matchAnnot l.data = none) →
    findLoop i table ls = .ok (ls, []) := by
  induction ls with
  | nil => intro i table _; rfl
  | cons line rest ih =>
    intro i table hnm
    unfold findLoop
    rw [hnm line (List.mem_cons_self _ _),
      ih (i + 1) table (fun l hl => hnm l (List.mem_cons_of_mem _ hl))]

theorem map_fst_eraseKey (w : Nat) (t : List (Nat × Lifetime)) :
    (eraseKey w t).map Prod.fst = (t.map Prod.fst).filter (fun x => x ≠ w) := by
  induction t with
  | nil => rfl
  | cons p rest ih =>
    by_cases hp : p.1 = w
    · simp [eraseKey, List.filter_cons, hp] at ih ⊢
      exact ih
    · simp [eraseKey, List.filter_cons, hp] at ih ⊢
      exact ih

theorem lookup_isSome (w : Nat) (t : List (Nat × Lifetime)) :
    (List.lookup w t).isSome = true ↔ w ∈ t.map Prod.fst := by
  induction t with
  | nil => simp [List.lookup]
  | cons p rest ih =>
    rw [List.lookup]
    cases hw : w == p.1 with
    | true =>
      have hweq : w = p.1 := by simpa using hw
      simp [hweq]
    | false =>
      have hne : ¬w = p.1 := by simpa using hw
      simp [hne, ih]

/-- The scanning loop fails exactly when the spec-side scan over the open
widths reports a failure, provided the open widths mirror the table keys. -/
theorem findLoop_isError_eq_spec (rest : List String) :
    ∀ (i : Nat) (table : List (Nat × Lifetime)) (opens : List Nat),
    table.map Prod.fst = opens →
    exceptIsError (findLoop i table rest) = specScanFails opens rest := by
  induction rest with
  | nil => intro i table opens _; rfl
  | cons line rest ih =>
    intro i table opens hto
    cases hm : matchAnnot line.data with
    | none =>
      have hrec := ih (i + 1) table opens hto
      cases hr : findLoop (i + 1) table rest with
      | error e =>
        rw [hr] at hrec
        simp only [findLoop, specScanFails, hm, hr, exceptIsError] at hrec ⊢
        exact hrec
      | ok p =>
        obtain ⟨ls, lts⟩ := p
        rw [hr] at hrec
        simp only [findLoop, specScanFails, hm, hr, exceptIsError] at hrec ⊢
        exact hrec
    | some q =>
      obtain ⟨pfx, w, is_start, label⟩ := q
      cases hlk : List.lookup w table with
      | some lt0 =>
        have hmem : w ∈ opens := by
          rw [← hto]
          exact (lookup_isSome w table).mp (by rw [hlk]; rfl)
        cases is_start with
        | true =>
          simp only [findLoop, specScanFails, hm, hlk, exceptIsError,
            if_pos hmem, if_pos rfl]
          simp [exceptIsError]
        | false =>
          have hto' : (eraseKey w table).map Prod.fst =
              opens.filter (fun x => x ≠ w) := by
            rw [← hto]; exact map_fst_eraseKey w table
          have hrec := ih (i + 1) (eraseKey w table) _ hto'
          cases hr : findLoop (i + 1) (eraseKey w table) rest with
          | error e =>
            rw [hr] at hrec
            simp only [exceptIsError] at hrec
            simp only [findLoop, specScanFails, hm, hlk, hr, exceptIsError,
              if_pos hmem] at hrec ⊢
            exact hrec
          | ok p =>
            obtain ⟨ls, lts⟩ := p
            rw [hr] at hrec
            simp only [exceptIsError] at hrec
            simp only [findLoop, specScanFails, hm, hlk, hr, exceptIsError,
              if_pos hmem] at hrec ⊢
            exact hrec
      | none =>
        have hmem : w ∉ opens := by
          rw [← hto]
          intro hc
          have hs := (lookup_isSome w table).mpr hc
          rw [hlk] at hs
          simp at hs
        cases is_start with
        | true =>
          have hrec := ih (i + 1) ((w, ⟨i, 0, String.mk label⟩) :: table)
            (w :: opens) (by rw [List.map_cons, hto])
          cases hr : findLoop (i + 1)
              ((w, ⟨i, 0, String.mk label⟩) :: table) rest with
          | error e =>
            rw [hr] at hrec
            simp only [exceptIsError] at hrec
            simp only [findLoop, specScanFails, hm, hlk, hr, exceptIsError,
              if_neg hmem] at hrec ⊢
            exact hrec
          | ok p =>
            obtain ⟨ls, lts⟩ := p
            rw [hr] at hrec
            simp only [exceptIsError] at hrec
            simp only [findLoop, specScanFails, hm, hlk, hr, exceptIsError,
              if_neg hmem] at hrec ⊢
            exact hrec
        | false =>
          simp only [findLoop, specScanFails, hm, hlk, exceptIsError,
            if_neg hmem]
          simp [exceptIsError]

theorem exceptIsError_iff (r : Except String (List String × List Lifetime)) :
    exceptIsError r = true ↔ ∃ e, r = .error e := by
  cases r <;> simp [exceptIsError]

theorem codeTextNodes_length (code : List String) :
    ∀ i, (codeTextNodes i code).length = code.length := by
  induction code with
  | nil => intro i; rfl
  | cons l rest ih => intro i; simp [codeTextNodes, ih]

theorem spanNodes_get (lts : List Lifetime) :
    ∀ (j i : Nat) (lt : Lifetime), lts.get? i = some lt →
    (spanNodes j lts).get? (2 * i) = some (labelNode (j + i) lt) ∧
    (spanNodes j lts).get? (2 * i + 1) = some (bracketNode (j + i) lt) := by
  induction lts with
  | nil => intro j i lt h; simp at h
  | cons lt0 rest ih =>
    intro j i lt h
    cases i with
    | zero =>
      rw [List.get?_cons_zero] at h
      injection h with h'
      subst h'
      exact ⟨rfl, rfl⟩
    | succ n =>
      rw [List.get?_cons_succ] at h
      obtain ⟨h1, h2⟩ := ih (j + 1) n lt h
      have e : j + 1 + n = j + (n + 1) := by omega
      rw [e] at h1 h2
      constructor
      · have e2 : 2 * (n + 1) = 2 * n + 1 + 1 := by ring
        rw [e2]
        simp only [spanNodes, List.get?_cons_succ]
        exact h1
      · have e2 : 2 * (n + 1) + 1 = 2 * n + 1 + 1 + 1 := by ring
        rw [e2]
        simp only [spanNodes, List.get?_cons_succ]
        exact h2

/-- Position of the label and bracket nodes of the span at enumeration
index `i` inside the generated document: right after the style block and
the `code.length` code-row text elements. -/
theorem generate_svg_get (code : List String) (lts : List Lifetime)
    (i : Nat) (lt : Lifetime) (h : lts.get? i = some lt) :
    (generate_svg code lts).get? (1 + code.length + 2 * i) =
      some (labelNode i lt) ∧
    (generate_svg code lts).get? (1 + code.length + 2 * i + 1) =
      some (bracketNode i lt) := by
  obtain ⟨h1, h2⟩ := spanNodes_get lts 0 i lt h
  rw [Nat.zero_add] at h1 h2
  have hlen := codeTextNodes_length code 0
  constructor
  · show (SvgNode.styleDefs ::
      (codeTextNodes 0 code ++ spanNodes 0 lts)).get? (1 + code.length + 2 * i) = _
    have e : 1 + code.length + 2 * i =
        ((codeTextNodes 0 code).length + 2 * i) + 1 := by omega
    rw [e, List.get?_cons_succ, List.get?_append_right (by omega)]
    have e2 : (codeTextNodes 0 code).length + 2 * i -
        (codeTextNodes 0 code).length = 2 * i := by omega
    rw [e2]
    exact h1
  · show (SvgNode.styleDefs ::
      (codeTextNodes 0 code ++ spanNodes 0 lts)).get? (1 + code.length + 2 * i + 1) = _
    have e : 1 + code.length + 2 * i + 1 =
        ((codeTextNodes 0 code).length + (2 * i + 1)) + 1 := by omega
    rw [e, List.get?_cons_succ, List.get?_append_right (by omega)]
    have e2 : (codeTextNodes 0 code).length + (2 * i + 1) -
        (codeTextNodes 0 code).length = 2 * i + 1 := by omega
    rw [e2]
    exact h2

/-! ## Claim theorems -/

/-- Claim C1: on every line buffer on which `find_lifetimes` succeeds, the
returned spans are ordered by the row at which each span's CLOSE-GLYPH
line was encountered — the `ending_line` fields (each set to the row of
the closing line at the moment the span is appended) are strictly
increasing along the returned list, regardless of the order of the
OPEN-GLYPH lines. -/
theorem spans_listed_in_close_order (code cleaned : List String)
    (spans : List Lifetime)
    (h : find_lifetimes code = .ok (cleaned, spans)) :
    List.Pairwise (fun a b => a.ending_line < b.ending_line) spans :=
  (findLoop_ok_close_order code 0 [] cleaned spans h).2

/-- Witness for C1 at the concrete scenario of spec §8: the two spans come
back in close order (closing rows 3 then 4), not in open order (their
opening rows are 1 then 0). -/
theorem spans_listed_in_close_order_witness :
    find_lifetimes scenarioLines = .ok (scenarioCleaned, scenarioSpans) ∧
    List.Pairwise (fun a b => a.ending_line < b.ending_line) scenarioSpans :=
  ⟨rfl,
    spans_listed_in_close_order scenarioLines scenarioCleaned scenarioSpans
      rfl⟩

/-- Claim C10: every span returned by a successful run of
`find_lifetimes` is opened on a strictly earlier row than it is closed. -/
theorem span_start_before_end (code cleaned : List String)
    (spans : List Lifetime)
    (h : find_lifetimes code = .ok (cleaned, spans)) :
    ∀ lt ∈ spans, lt.starting_line < lt.ending_line :=
  findLoop_ok_start_lt_end code 0 [] cleaned spans (by simp) h

/-- Witness for C10 at the §8 scenario, instantiated at its first span
(opened on row 1, closed on row 3). -/
theorem span_start_before_end_witness :
    find_lifetimes scenarioLines = .ok (scenarioCleaned, scenarioSpans) ∧
    (⟨1, 3, "Lifetime of `b`"⟩ : Lifetime).starting_line <
      (⟨1, 3, "Lifetime of `b`"⟩ : Lifetime).ending_line :=
  ⟨rfl,
    span_start_before_end scenarioLines scenarioCleaned scenarioSpans rfl
      ⟨1, 3, "Lifetime of `b`"⟩ (by simp [scenarioSpans])⟩

/-- Counterexample to claim C3 as stated: on a lone CLOSE-GLYPH line of
width 2 the produced message names only one row number and does not
mention the conflicting width at all — the digit 2 never occurs in it. -/
theorem error_message_counterexample :
    find_lifetimes ["x// --/ y"] =
      .error "Ending lifetime on line 0 wasn't started" ∧
    '2' ∉ ("Ending lifetime on line 0 wasn't started").data :=
  ⟨rfl, by decide⟩

/-- Claim C3 amended: every parse-failure message names exactly the rows
involved and never the width.  A span-conflict failure produces the
conflict template applied to the row of the still-open span of the
conflicting width — an earlier OPEN-GLYPH line of the same width with no
intervening annotation line of that width, so its span is still open — and
to the current row, which holds the conflicting OPEN-GLYPH line.  An
unmatched-close failure produces the unmatched-close template applied to
the current row only, the row holding the failing CLOSE-GLYPH line.
Neither template interpolates the width. -/
theorem error_messages_shape (code : List String) (msg : String)
    (h : find_lifetimes code = .error msg) :
    (∃ w r0 r1, r0 < r1 ∧ annotLineAt code w true r0 ∧
      annotLineAt code w true r1 ∧ noWidthBetween code w r0 r1 ∧
      msg = "Lifetime from line " ++ toString r0 ++
        " not finished before it is started again on line " ++ toString r1) ∨
    (∃ w r, annotLineAt code w false r ∧
      msg = "Ending lifetime on line " ++ toString r ++ " wasn't started") :=
  findLoop_error_rows code code 0 [] msg rfl (by simp) h

/-- Witness for the amended C3 at a concrete span conflict: two OPEN-GLYPH
lines of width 1 with no intervening close.  The message names row 0 (the
still-open span) and row 1 (the conflicting reuse). -/
theorem error_messages_shape_witness :
    find_lifetimes ["// -\\ a", "// -\\ b"] =
      .error
        "Lifetime from line 0 not finished before it is started again on line 1" ∧
    ((∃ w r0 r1, r0 < r1 ∧
        annotLineAt ["// -\\ a", "// -\\ b"] w true r0 ∧
        annotLineAt ["// -\\ a", "// -\\ b"] w true r1 ∧
        noWidthBetween ["// -\\ a", "// -\\ b"] w r0 r1 ∧
        ("Lifetime from line 0 not finished before it is started again on line 1" : String) =
          "Lifetime from line " ++ toString r0 ++
            " not finished before it is started again on line " ++
            toString r1) ∨
     (∃ w r, annotLineAt ["// -\\ a", "// -\\ b"] w false r ∧
        ("Lifetime from line 0 not finished before it is started again on line 1" : String) =
          "Ending lifetime on line " ++ toString r ++ " wasn't started")) :=
  ⟨rfl, error_messages_shape ["// -\\ a", "// -\\ b"] _ rfl⟩

/-- Claim C4: the parser fails if and only if, scanning the lines in
strictly increasing row order, it reaches a grammar-matching OPEN-GLYPH
line whose width is already in the open-span table or a grammar-matching
CLOSE-GLYPH line whose width is absent from it — the condition computed by
the spec-side scan `specScanFails`.  On every other input it returns
normally; in particular `specScanFails` never fails at end of input, so a
width still open when the input ends is not a failure. -/
theorem parse_fails_iff_bad_line (code : List String) :
    (∃ e, find_lifetimes code = .error e) ↔ specScanFails [] code = true := by
  rw [← findLoop_isError_eq_spec code 0 [] [] rfl]
  exact (exceptIsError_iff _).symm

/-- Counterexample to claim C5 as stated: the greedy code prefix of this
line still contains an annotation pattern, so the first run succeeds but
re-running the parser on the cleaned buffer it produced fails instead of
returning the same buffer with no spans. -/
theorem reparse_counterexample :
    find_lifetimes ["a// -/ b// -\\ c"] = .ok (["a// -/ b"], []) ∧
    find_lifetimes ["a// -/ b"] =
      .error "Ending lifetime on line 0 wasn't started" ∧
    find_lifetimes ["a// -/ b"] ≠ .ok (["a// -/ b"], []) := by
  refine ⟨rfl, rfl, ?_⟩
  intro hc
  have h2 : (Except.error "Ending lifetime on line 0 wasn't started" :
      Except String (List String × List Lifetime)) = .ok (["a// -/ b"], []) :=
    (rfl : (Except.error "Ending lifetime on line 0 wasn't started" :
      Except String (List String × List Lifetime)) =
        find_lifetimes ["a// -/ b"]).trans hc
  exact Except.noConfusion h2

/-- Claim C5 amended: on a buffer on which `find_lifetimes` succeeds and
whose cleaned output contains no line matching the annotation grammar,
running the parser again on that cleaned buffer returns an empty span list
and leaves the buffer unchanged.  (The unrestricted claim fails: a cleaned
line can itself still match the grammar, see the counterexample.) -/
theorem reparse_clean_idempotent (code cleaned : List String)
    (spans : List Lifetime)
    (h : find_lifetimes code = .ok (cleaned, spans))
    (hclean : ∀ l ∈ cleaned, matchAnnot l.data = none) :
    find_lifetimes cleaned = .ok (cleaned, []) :=
  findLoop_no_match cleaned 0 [] hclean

/-- Witness for the amended C5 at the §8 scenario, whose cleaned lines
contain no annotation pattern. -/
theorem reparse_clean_idempotent_witness :
    find_lifetimes scenarioLines = .ok (scenarioCleaned, scenarioSpans) ∧
    (∀ l ∈ scenarioCleaned, matchAnnot l.data = none) ∧
    find_lifetimes scenarioCleaned = .ok (scenarioCleaned, []) :=
  ⟨rfl, by decide,
    reparse_clean_idempotent scenarioLines scenarioCleaned scenarioSpans rfl
      (by decide)⟩

/-- Counterexample to claim C2 as stated: for the single span at
enumeration index 0, the bracket's horizontal gutter reach (the x of its
fourth polyline point, from which the label x derives) is 230 and the
label sits at x = 240 — not (150 + 230) + 20*0 = 380 and 390. -/
theorem gutter_x_counterexample :
    (generate_svg [] [⟨0, 1, ""⟩]).get? 2 =
      some (SvgNode.pathNode "line"
        [(150, 10), (190, 10), (190, 20), (230, 20), (190, 20), (190, 50),
         (150, 50)]) ∧
    (generate_svg [] [⟨0, 1, ""⟩]).get? 1 =
      some (SvgNode.textNode 240 25 "annotation" "") ∧
    (230 : Nat) ≠ (150 + 230) + 20 * 0 :=
  ⟨rfl, rfl, by decide⟩

/-- Claim C2 amended: for the span at enumeration index `i` the horizontal
gutter point is `x_mid = 230 + F*i` with `F = 20` — the gutter origin
`G = 150` is not part of the sum — and the label x position is
`x_mid + 10`. -/
theorem gutter_x_amended (code : List String) (lts : List Lifetime)
    (i : Nat) (lt : Lifetime) (h : lts.get? i = some lt) :
    (generate_svg code lts).get? (1 + code.length + 2 * i) =
      some (SvgNode.textNode ((230 + 20 * i) + 10)
        (lt.starting_line * 20 + 10 + 15) "annotation"
        (markup_to_svg lt.comment)) ∧
    (generate_svg code lts).get? (1 + code.length + 2 * i + 1) =
      some (SvgNode.pathNode "line"
        [(150, lt.starting_line * 20 + 10),
         ((150 + (230 + 20 * i)) / 2, lt.starting_line * 20 + 10),
         ((150 + (230 + 20 * i)) / 2, (lt.starting_line + 1) * 20),
         (230 + 20 * i, (lt.starting_line + 1) * 20),
         ((150 + (230 + 20 * i)) / 2, (lt.starting_line + 1) * 20),
         ((150 + (230 + 20 * i)) / 2, lt.ending_line * 20 + 30),
         (150, lt.ending_line * 20 + 30)]) := by
  obtain ⟨h1, h2⟩ := generate_svg_get code lts i lt h
  exact ⟨h1, h2⟩

/-- Witness for the amended C2: one span after two code lines; the label
lands at x = 230 + 20*0 + 10 = 240. -/
theorem gutter_x_amended_witness :
    ([⟨2, 5, "lbl"⟩] : List Lifetime).get? 0 = some ⟨2, 5, "lbl"⟩ ∧
    (generate_svg ["a", "b"] [⟨2, 5, "lbl"⟩]).get? 3 =
      some (SvgNode.textNode 240 65 "annotation" (markup_to_svg "lbl")) :=
  ⟨rfl, (gutter_x_amended ["a", "b"] [⟨2, 5, "lbl"⟩] 0 ⟨2, 5, "lbl"⟩ rfl).1⟩

/-- Claim C6: for every span the renderer emits its bracket as one open
polyline visiting exactly, in order, the seven points
(G, y_start), (mid_x, y_start), (mid_x, y_mid), (x_mid, y_mid),
(mid_x, y_mid), (mid_x, y_end), (G, y_end), with H = 20,
y_start = starting_line*H + H/2, y_mid = (starting_line+1)*H,
y_end = ending_line*H + H + H/2, x_start = x_end = G = 150 and
mid_x = (x_start + x_mid)/2. -/
theorem bracket_seven_points (code : List String) (lts : List Lifetime)
    (i : Nat) (lt : Lifetime) (h : lts.get? i = some lt) :
    (generate_svg code lts).get? (1 + code.length + 2 * i + 1) =
      some (SvgNode.pathNode "line"
        [(150, lt.starting_line * 20 + 20 / 2),
         ((150 + (230 + 20 * i)) / 2, lt.starting_line * 20 + 20 / 2),
         ((150 + (230 + 20 * i)) / 2, (lt.starting_line + 1) * 20),
         (230 + 20 * i, (lt.starting_line + 1) * 20),
         ((150 + (230 + 20 * i)) / 2, (lt.starting_line + 1) * 20),
         ((150 + (230 + 20 * i)) / 2, lt.ending_line * 20 + 20 + 20 / 2),
         (150, lt.ending_line * 20 + 20 + 20 / 2)]) := by
  have h2 := (generate_svg_get code lts i lt h).2
  rw [h2]
  simp only [bracketNode, Option.some.injEq, SvgNode.pathNode.injEq,
    List.cons.injEq, Prod.mk.injEq, and_true, true_and]

/-- Witness for C6: the single span from row 0 to row 1 next to one code
line yields the concrete seven-point polyline. -/
theorem bracket_seven_points_witness :
    ([⟨0, 1, "hi"⟩] : List Lifetime).get? 0 = some ⟨0, 1, "hi"⟩ ∧
    (generate_svg ["x"] [⟨0, 1, "hi"⟩]).get? 3 =
      some (SvgNode.pathNode "line"
        [(150, 10), (190, 10), (190, 20), (230, 20), (190, 20), (190, 50),
         (150, 50)]) :=
  ⟨rfl, bracket_seven_points ["x"] [⟨0, 1, "hi"⟩] 0 ⟨0, 1, "hi"⟩ rfl⟩

/-- Counterexample to claim C7 as stated: a parse failure (here an
unmatched close) aborts through `panic!` with the raw parse message; the
program does not print an `Error: `-prefixed line for it. -/
theorem failure_output_counterexample :
    runProg (.ok "x// -/ y") =
      .panicked "Ending lifetime on line 0 wasn't started" ∧
    isErrLine (runProg (.ok "x// -/ y")) = false :=
  ⟨rfl, rfl⟩

/-- Claim C7 amended: every failing run either is an input-read failure,
which yields a single `Error: `-prefixed line, or is a parse failure,
which aborts through `panic!` carrying the parse message (no `Error: `
prefix); in neither case is a diagram, partial or complete, produced. -/
theorem failure_output_amended (r : Except String String)
    (h : isDiagram (runProg r) = false) :
    (∃ e, r = .error e ∧ runProg r = .errLine ("Error: " ++ e)) ∨
    (∃ buf m, r = .ok buf ∧ find_lifetimes (splitLines buf) = .error m ∧
      runProg r = .panicked m) := by
  cases r with
  | error e => exact Or.inl ⟨e, rfl, rfl⟩
  | ok buf =>
    cases hf : find_lifetimes (splitLines buf) with
    | error m => exact Or.inr ⟨buf, m, rfl, hf, by simp [runProg, hf]⟩
    | ok p =>
      exfalso
      obtain ⟨cl, lts⟩ := p
      simp [runProg, hf, isDiagram] at h

/-- Witness for the amended C7 at a failing stdin read. -/
theorem failure_output_amended_witness :
    isDiagram (runProg (.error "io")) = false ∧
    ((∃ e, (Except.error "io" : Except String String) = .error e ∧
        runProg (.error "io") = .errLine ("Error: " ++ e)) ∨
     (∃ buf m, (Except.error "io" : Except String String) = .ok buf ∧
        find_lifetimes (splitLines buf) = .error m ∧
        runProg (.error "io") = .panicked m)) :=
  ⟨rfl, failure_output_amended (.error "io") rfl⟩

/-- Claim C8: on the input `*foo_bar*baz_` the inline markup formatter
produces exactly three sequential flat runs — `foo` tagged bold, `bar`
tagged bold and underline, `baz` tagged underline — each opened and closed
before the next begins, never a nested structure: the token stream is an
open tag, literal characters and a close tag three times over, and the
output string is the plain concatenation of the three closed runs. -/
theorem markup_flat_runs :
    markupTokens "*foo_bar*baz_" =
      [.openTag true false false false, .chr 'f', .chr 'o', .chr 'o',
       .closeTag,
       .openTag true true false false, .chr 'b', .chr 'a', .chr 'r',
       .closeTag,
       .openTag false true false false, .chr 'b', .chr 'a', .chr 'z',
       .closeTag] ∧
    markup_to_svg "*foo_bar*baz_" =
      "<tspan class=\"m_bold   \">foo</tspan>" ++
      "<tspan class=\"m_bold m_underline  \">bar</tspan>" ++
      "<tspan class=\" m_underline  \">baz</tspan>" :=
  ⟨rfl, rfl⟩

/-- Claim C9 (code bug): on the label `*a` the bold toggle is still on
when the text ends, and `markup_to_svg` returns with the trailing run's
opening `<tspan>` never closed — one opening tag, zero closing tags — so
the output construct is not closed structurally. -/
theorem trailing_run_left_open :
    markup_to_svg "*a" = "<tspan class=\"m_bold   \">a" ∧
    countOpenTags (markupTokens "*a") = 1 ∧
    countCloseTags (markupTokens "*a") = 0 :=
  ⟨rfl, rfl, rfl⟩
